import Mathlib

/-!
Verification of the UK citizenship eligibility calculator core
(`calculator.py`): trip modelling, absence-day counting over date
windows, single-date eligibility checking, and forward search for the
earliest eligible application date.

Calendar dates are embedded as proleptic Gregorian year/month/day
triples, mirroring the Python type `datetime.date`: `toOrdinal` is
`date.toordinal()`, `nextDay`/`prevDay` compute `date ± timedelta(days=1)`,
and `subYears`/`addYears` model `dateutil.relativedelta(years=n)`
subtraction/addition (the year is shifted and the day clamped to the
length of the target month). Date comparison and subtraction act through
the ordinal, which agrees with the field-wise comparison of Python on valid
dates. Years are unbounded integers (the 1..9999 range bound of Python is not
modelled).
-/

/-- A calendar date: proleptic Gregorian year, month (1-12), day. -/
structure Date where
  year : Int
  month : Nat
  day : Nat
deriving DecidableEq, Repr

/-- Gregorian leap-year test, as in the Python function `calendar.isleap`.
On `Int`, `%` is Euclidean mod, which agrees with the Python `%` for
positive divisors. -/
def isLeap (y : Int) : Bool :=
  y % 4 == 0 && (y % 100 != 0 || y % 400 == 0)

/-- Length of month `m` of year `y` (`datetime._days_in_month`).
Months outside 1..12 give 0. -/
def daysInMonth (y : Int) (m : Nat) : Nat :=
  match m with
  | 1 => 31 | 2 => if isLeap y then 29 else 28 | 3 => 31 | 4 => 30
  | 5 => 31 | 6 => 30 | 7 => 31 | 8 => 31 | 9 => 30 | 10 => 31
  | 11 => 30 | 12 => 31 | _ => 0

/-- Days in the months of year `y` strictly before month `m`
(`datetime._days_before_month`): a closed form of the cumulative table
`_DAYS_BEFORE_MONTH` plus the leap-day adjustment for months after
February. On months 1..12 it yields exactly the CPython values
0, 31, 59, 90, 120, 151, 181, 212, 243, 273, 304, 334 (+1 from March on
in leap years), as the `daysBeforeMonth_succ` lemma below certifies
against `daysInMonth`. -/
def daysBeforeMonth (y : Int) (m : Nat) : Nat :=
  (367 * m - 362) / 12 - (if m ≤ 2 then 0 else if isLeap y then 1 else 2)

/-- Number of days in year `y`. -/
def daysInYear (y : Int) : Nat := if isLeap y then 366 else 365

/-- Days before January 1st of year `y` (`datetime._days_before_year`).
On `Int`, `/` is Euclidean division, which agrees with the Python floor
division for positive divisors. -/
def daysBeforeYear (y : Int) : Int :=
  365 * (y - 1) + (y - 1) / 4 - (y - 1) / 100 + (y - 1) / 400

/-- Python `date.toordinal()`: day number, with 0001-01-01 as day 1. -/
def toOrdinal (d : Date) : Int :=
  daysBeforeYear d.year + daysBeforeMonth d.year d.month + d.day

/-- A structurally valid date: the invariant the Python `date` type maintains
(minus the year-9999 upper bound; the embedding is the unbounded
proleptic Gregorian calendar). -/
def Date.Valid (d : Date) : Prop :=
  1 ≤ d.month ∧ d.month ≤ 12 ∧ 1 ≤ d.day ∧ d.day ≤ daysInMonth d.year d.month

instance (d : Date) : Decidable d.Valid :=
  inferInstanceAs
    (Decidable (1 ≤ d.month ∧ d.month ≤ 12 ∧ 1 ≤ d.day ∧ d.day ≤ daysInMonth d.year d.month))

/-- Python `(a - b).days`: difference of two dates in days. -/
def dateSub (a b : Date) : Int := toOrdinal a - toOrdinal b

/-- Python `d + timedelta(days=1)`, computed on the year/month/day fields. -/
def nextDay (d : Date) : Date :=
  if d.day < daysInMonth d.year d.month then ⟨d.year, d.month, d.day + 1⟩
  else if d.month < 12 then ⟨d.year, d.month + 1, 1⟩
  else ⟨d.year + 1, 1, 1⟩

/-- Python `d - timedelta(days=1)`, computed on the year/month/day fields. -/
def prevDay (d : Date) : Date :=
  if 1 < d.day then ⟨d.year, d.month, d.day - 1⟩
  else if 1 < d.month then ⟨d.year, d.month - 1, daysInMonth d.year (d.month - 1)⟩
  else ⟨d.year - 1, 12, 31⟩

/-- Python `d - relativedelta(years=n)`: the year is shifted down by `n` and the
day clamped to the length of the resulting month (so e.g.
2024-02-29 minus 1 year is 2023-02-28). -/
def subYears (d : Date) (n : Nat) : Date :=
  ⟨d.year - n, d.month, min d.day (daysInMonth (d.year - n) d.month)⟩

/-- Python `d + relativedelta(years=n)`: the year is shifted up by `n` and the
day clamped to the length of the resulting month. -/
def addYears (d : Date) (n : Nat) : Date :=
  ⟨d.year + n, d.month, min d.day (daysInMonth (d.year + n) d.month)⟩

/-- A trip outside the UK: `start` is the date the person left, `end_`
the date they returned (named `end` in the source; `end` is reserved in
Lean). `note` is a free-text label, unused by the engine. -/
structure Trip where
  start : Date
  end_ : Date
  note : String
deriving DecidableEq, Repr

/-- Constructor `Trip(start, end, note)` including the `__post_init__` validation:
construction fails with `ValueError` when `end < start`, and no Trip
value is produced in that case. -/
def mkTrip (start end_ : Date) (note : String) : Except String Trip :=
  if toOrdinal end_ < toOrdinal start then
    Except.error "Trip end date cannot be before start date."
  else Except.ok ⟨start, end_, note⟩

/-- Method `Trip.full_absence_days`: number of days between `start + 1` and
`end - 1` inclusive, 0 when that interval is empty. -/
def Trip.full_absence_days (t : Trip) : Int :=
  let abs_start := nextDay t.start
  let abs_end := prevDay t.end_
  if toOrdinal abs_end < toOrdinal abs_start then 0
  else dateSub abs_end abs_start + 1

/-- Python `max(a, b)` on two dates. -/
def dmax (a b : Date) : Date := if toOrdinal a < toOrdinal b then b else a

/-- Python `min(a, b)` on two dates. -/
def dmin (a b : Date) : Date := if toOrdinal b < toOrdinal a then b else a

/-- Function `_overlap`: the overlapping date range `[start, end]` inclusive of
two inclusive ranges, else `none`. -/
def overlap (a_start a_end b_start b_end : Date) : Option (Date × Date) :=
  let s := dmax a_start b_start
  let e := dmin a_end b_end
  if toOrdinal e < toOrdinal s then none else some (s, e)

/-- The body of the `count_absent_days` loop: the contribution of one trip to
the total over `[window_start, window_end]`. -/
def tripContribution (t : Trip) (window_start window_end : Date) : Int :=
  let trip_abs_start := nextDay t.start
  let trip_abs_end := prevDay t.end_
  if toOrdinal trip_abs_end < toOrdinal trip_abs_start then 0
  else match overlap window_start window_end trip_abs_start trip_abs_end with
    | none => 0
    | some (o_start, o_end) => dateSub o_end o_start + 1

/-- Function `count_absent_days`: full absence days within
`[window_start, window_end]` inclusive, summed over the trips. -/
def count_absent_days (trips : List Trip) (window_start window_end : Date) : Int :=
  if toOrdinal window_end < toOrdinal window_start then 0
  else (trips.map fun t => tripContribution t window_start window_end).sum

/-- Function `is_full_absence_day`: true if `d` is a full absence day for any trip. -/
def is_full_absence_day (trips : List Trip) (d : Date) : Bool :=
  trips.any fun trip =>
    decide (toOrdinal (nextDay trip.start) ≤ toOrdinal d) &&
    decide (toOrdinal d ≤ toOrdinal (prevDay trip.end_))

/-- The result record of `check_candidate_date`. -/
structure CandidateCheckResult where
  candidate_date : Date
  days_12_months : Int
  days_5_years : Int
  presence_date_5y : Date
  present_on_presence_date : Bool
  meets_12m_rule : Bool
  meets_5y_rule : Bool
  fully_eligible : Bool
deriving DecidableEq, Repr

/-- Function `check_candidate_date`: eligibility rules for one candidate
application date. In the source the caps default to 90 and 450. -/
def check_candidate_date (trips : List Trip) (candidate_date : Date)
    (max_12_month_absences : Int) (max_5_year_absences : Int) :
    CandidateCheckResult :=
  let start_12m := subYears candidate_date 1
  let end_12m := prevDay candidate_date
  let start_5y := subYears candidate_date 5
  let end_5y := prevDay candidate_date
  let days_12m := count_absent_days trips start_12m end_12m
  let days_5y := count_absent_days trips start_5y end_5y
  let presence_date := nextDay start_5y
  let present_on_presence_date := !is_full_absence_day trips presence_date
  let meets_12m := decide (days_12m ≤ max_12_month_absences)
  let meets_5y := decide (days_5y ≤ max_5_year_absences)
  let fully_eligible := meets_12m && meets_5y && present_on_presence_date
  { candidate_date := candidate_date
    days_12_months := days_12m
    days_5_years := days_5y
    presence_date_5y := presence_date
    present_on_presence_date := present_on_presence_date
    meets_12m_rule := meets_12m
    meets_5y_rule := meets_5y
    fully_eligible := fully_eligible }

/-- The scan loop of `find_earliest_application_date`, recursing on the
number of remaining candidate days. -/
def searchFrom (trips : List Trip) (max_12_month_absences max_5_year_absences : Int) :
    Nat → Date → Option CandidateCheckResult
  | 0, _ => none
  | n + 1, current =>
    let result := check_candidate_date trips current max_12_month_absences max_5_year_absences
    if result.fully_eligible then some result
    else searchFrom trips max_12_month_absences max_5_year_absences n (nextDay current)

/-- Function `find_earliest_application_date`: scan forward day-by-day from `today`
to `today + search_years` calendar years inclusive, returning the first
fully eligible result, else `none`. In the source `search_years`
defaults to 10 and the caps to 90 and 450. -/
def find_earliest_application_date (trips : List Trip) (today : Date)
    (search_years : Nat) (max_12_month_absences max_5_year_absences : Int) :
    Option CandidateCheckResult :=
  let max_date := addYears today search_years
  searchFrom trips max_12_month_absences max_5_year_absences
    (toOrdinal max_date + 1 - toOrdinal today).toNat today

/-- Constructing the Trip list from raw `(start, end, note)` rows, as the
callers do: the only failure point of the whole engine is the `Trip`
validation. -/
def validate_trips (rows : List (Date × Date × String)) : Except String (List Trip) :=
  rows.mapM fun r => mkTrip r.1 r.2.1 r.2.2

/-- Raw-input composition: validate the rows, then count. -/
def count_absent_days_from_rows (rows : List (Date × Date × String))
    (window_start window_end : Date) : Except String Int := do
  let trips ← validate_trips rows
  pure (count_absent_days trips window_start window_end)

/-- Raw-input composition: validate the rows, then test the single date. -/
def is_full_absence_day_from_rows (rows : List (Date × Date × String))
    (d : Date) : Except String Bool := do
  let trips ← validate_trips rows
  pure (is_full_absence_day trips d)

/-- Raw-input composition: validate the rows, then check one candidate date. -/
def check_candidate_date_from_rows (rows : List (Date × Date × String))
    (candidate_date : Date) (max_12_month_absences max_5_year_absences : Int) :
    Except String CandidateCheckResult := do
  let trips ← validate_trips rows
  pure (check_candidate_date trips candidate_date max_12_month_absences max_5_year_absences)

/-- Raw-input composition: validate the rows, then run the forward search. -/
def find_earliest_application_date_from_rows (rows : List (Date × Date × String))
    (today : Date) (search_years : Nat) (max_12_month_absences max_5_year_absences : Int) :
    Except String (Option CandidateCheckResult) := do
  let trips ← validate_trips rows
  pure (find_earliest_application_date trips today search_years
    max_12_month_absences max_5_year_absences)

theorem isLeap_iff (y : Int) :
    isLeap y = true ↔ (y % 4 = 0 ∧ (y % 100 ≠ 0 ∨ y % 400 = 0)) := by
  simp [isLeap]

theorem daysInYear_bounds (y : Int) : 365 ≤ daysInYear y ∧ daysInYear y ≤ 366 := by
  unfold daysInYear; split <;> omega

theorem daysInMonth_le (y : Int) (m : Nat) : daysInMonth y m ≤ 31 := by
  unfold daysInMonth
  split <;> first | omega | (split <;> omega)

theorem daysInMonth_pos (y : Int) {m : Nat} (h1 : 1 ≤ m) (h2 : m ≤ 12) :
    1 ≤ daysInMonth y m := by
  interval_cases m <;> simp [daysInMonth] <;> split <;> omega

theorem daysBeforeMonth_mono (y : Int) {m1 m2 : Nat} (h : m1 ≤ m2) :
    daysBeforeMonth y m1 ≤ daysBeforeMonth y m2 := by
  unfold daysBeforeMonth; split_ifs <;> omega

theorem daysBeforeMonth_cross (y1 y2 : Int) (m : Nat) :
    daysBeforeMonth y1 m ≤ daysBeforeMonth y2 m + 2 := by
  unfold daysBeforeMonth; split_ifs <;> omega

theorem daysBeforeMonth_succ (y : Int) {m : Nat} (h1 : 1 ≤ m) (h2 : m ≤ 12) :
    daysBeforeMonth y (m + 1) = daysBeforeMonth y m + daysInMonth y m := by
  cases hL : isLeap y <;> interval_cases m <;>
    simp [daysBeforeMonth, daysInMonth, hL] <;> omega

theorem daysBeforeMonth_day_le (y : Int) {m d : Nat} (h1 : 1 ≤ m) (h2 : m ≤ 12)
    (h3 : d ≤ daysInMonth y m) : daysBeforeMonth y m + d ≤ daysInYear y := by
  cases hL : isLeap y <;> interval_cases m <;>
    simp [daysBeforeMonth, daysInMonth, daysInYear, hL] at h3 ⊢ <;> omega

theorem daysBeforeYear_succ (y : Int) :
    daysBeforeYear (y + 1) = daysBeforeYear y + daysInYear y := by
  unfold daysBeforeYear daysInYear
  by_cases h : isLeap y = true
  · rw [if_pos h, isLeap_iff] at *
    omega
  · rw [if_neg h]
    rw [isLeap_iff] at h
    omega

theorem daysBeforeYear_mono {y1 y2 : Int} (h : y1 ≤ y2) :
    daysBeforeYear y1 ≤ daysBeforeYear y2 := by
  unfold daysBeforeYear; omega

theorem daysBeforeYear_gap (y : Int) :
    daysBeforeYear (y - 5) + 4 * 365 ≤ daysBeforeYear (y - 1) := by
  unfold daysBeforeYear; omega

theorem toOrdinal_lt_toOrdinal {d e : Date} (hd : d.Valid) (he : e.Valid)
    (h : d.year < e.year ∨ (d.year = e.year ∧ (d.month < e.month ∨
      (d.month = e.month ∧ d.day < e.day)))) :
    toOrdinal d < toOrdinal e := by
  obtain ⟨hm1, hm2, hd1, hd2⟩ := hd
  obtain ⟨he1, he2, he3, he4⟩ := he
  rcases h with h | ⟨hy, h⟩
  · have h1 : daysBeforeMonth d.year d.month + d.day ≤ daysInYear d.year :=
      daysBeforeMonth_day_le d.year hm1 hm2 hd2
    have h2 : daysBeforeYear (d.year + 1) = daysBeforeYear d.year + daysInYear d.year :=
      daysBeforeYear_succ d.year
    have h3 : daysBeforeYear (d.year + 1) ≤ daysBeforeYear e.year :=
      daysBeforeYear_mono (by omega)
    unfold toOrdinal
    omega
  · rcases h with h | ⟨hm, h⟩
    · have h1 : daysBeforeMonth d.year (d.month + 1) =
          daysBeforeMonth d.year d.month + daysInMonth d.year d.month :=
        daysBeforeMonth_succ d.year hm1 hm2
      have h2 : daysBeforeMonth d.year (d.month + 1) ≤ daysBeforeMonth d.year e.month :=
        daysBeforeMonth_mono d.year (by omega)
      unfold toOrdinal
      rw [hy] at h1 h2 hd2 ⊢
      omega
    · unfold toOrdinal
      rw [hy, hm]
      omega

theorem toOrdinal_inj {d e : Date} (hd : d.Valid) (he : e.Valid)
    (h : toOrdinal d = toOrdinal e) : d = e := by
  have hy : d.year = e.year := by
    rcases lt_trichotomy d.year e.year with hc | hc | hc
    · have := toOrdinal_lt_toOrdinal hd he (Or.inl hc); omega
    · exact hc
    · have := toOrdinal_lt_toOrdinal he hd (Or.inl hc); omega
  have hm : d.month = e.month := by
    rcases lt_trichotomy d.month e.month with hc | hc | hc
    · have := toOrdinal_lt_toOrdinal hd he (Or.inr ⟨hy, Or.inl hc⟩); omega
    · exact hc
    · have := toOrdinal_lt_toOrdinal he hd (Or.inr ⟨hy.symm, Or.inl hc⟩); omega
  have hday : d.day = e.day := by
    unfold toOrdinal at h
    rw [hy, hm] at h
    omega
  obtain ⟨y1, m1, d1⟩ := d
  obtain ⟨y2, m2, d2⟩ := e
  simp_all

theorem nextDay_valid {d : Date} (hd : d.Valid) : (nextDay d).Valid := by
  obtain ⟨y, m, day⟩ := d
  obtain ⟨h1, h2, h3, h4⟩ := hd
  dsimp only at h1 h2 h3 h4
  unfold nextDay Date.Valid
  dsimp only
  split_ifs with ha hb
  · exact ⟨h1, h2, by dsimp only; omega, by dsimp only; omega⟩
  · have hp := daysInMonth_pos y (m := m + 1) (by omega) (by omega)
    exact ⟨by dsimp only; omega, by dsimp only; omega, by dsimp only; omega,
      by dsimp only; omega⟩
  · have hp : daysInMonth (y + 1) 1 = 31 := rfl
    exact ⟨by dsimp only; omega, by dsimp only; omega, by dsimp only; omega,
      by dsimp only; omega⟩

theorem toOrdinal_nextDay {d : Date} (hd : d.Valid) :
    toOrdinal (nextDay d) = toOrdinal d + 1 := by
  obtain ⟨y, m, day⟩ := d
  obtain ⟨h1, h2, h3, h4⟩ := hd
  simp only at h1 h2 h3 h4
  unfold nextDay toOrdinal
  split_ifs with ha hb
  · push_cast; omega
  · simp only at ha hb ⊢
    have hs := daysBeforeMonth_succ y h1 h2
    push_cast
    omega
  · simp only at ha hb ⊢
    have hm : m = 12 := by omega
    subst hm
    have h31 : daysInMonth y 12 = 31 := by simp [daysInMonth]
    have hday : day = 31 := by omega
    subst hday
    have hs := daysBeforeYear_succ y
    have e1 : daysBeforeMonth (y + 1) 1 = 0 := by simp [daysBeforeMonth]
    have e2 : daysBeforeMonth y 12 + 31 = daysInYear y := by
      cases hL : isLeap y <;> simp [daysBeforeMonth, daysInYear, hL]
    push_cast
    omega

theorem prevDay_valid {d : Date} (hd : d.Valid) : (prevDay d).Valid := by
  obtain ⟨y, m, day⟩ := d
  obtain ⟨h1, h2, h3, h4⟩ := hd
  dsimp only at h1 h2 h3 h4
  unfold prevDay Date.Valid
  dsimp only
  split_ifs with ha hb
  · exact ⟨h1, h2, by dsimp only; omega, by dsimp only; omega⟩
  · have hp := daysInMonth_pos y (m := m - 1) (by omega) (by omega)
    exact ⟨by dsimp only; omega, by dsimp only; omega, by dsimp only; omega,
      by dsimp only; omega⟩
  · have hp : daysInMonth (y - 1) 12 = 31 := rfl
    exact ⟨by dsimp only; omega, by dsimp only; omega, by dsimp only; omega,
      by dsimp only; omega⟩

theorem toOrdinal_prevDay {d : Date} (hd : d.Valid) :
    toOrdinal (prevDay d) = toOrdinal d - 1 := by
  obtain ⟨y, m, day⟩ := d
  obtain ⟨h1, h2, h3, h4⟩ := hd
  simp only at h1 h2 h3 h4
  unfold prevDay toOrdinal
  split_ifs with ha hb
  · push_cast; omega
  · simp only at ha hb ⊢
    have hs := daysBeforeMonth_succ y (m := m - 1) (by omega) (by omega)
    have hmm : m - 1 + 1 = m := by omega
    rw [hmm] at hs
    have hday : day = 1 := by omega
    subst hday
    push_cast
    omega
  · simp only at ha hb ⊢
    have hm : m = 1 := by omega
    have hday : day = 1 := by omega
    subst hm
    subst hday
    have hs := daysBeforeYear_succ (y - 1)
    have hyy : y - 1 + 1 = y := by omega
    rw [hyy] at hs
    have e1 : daysBeforeMonth y 1 = 0 := by simp [daysBeforeMonth]
    have e2 : daysBeforeMonth (y - 1) 12 + 31 = daysInYear (y - 1) := by
      cases hL : isLeap (y - 1) <;> simp [daysBeforeMonth, daysInYear, hL]
    push_cast
    omega

theorem subYears_ord_le (d : Date) :
    toOrdinal (subYears d 5) ≤ toOrdinal (subYears d 1) := by
  unfold subYears toOrdinal
  have c1 := daysBeforeMonth_cross (d.year - (5 : Nat)) (d.year - (1 : Nat)) d.month
  have c2 : min d.day (daysInMonth (d.year - (5 : Nat)) d.month) ≤ 31 :=
    le_trans (min_le_right _ _) (daysInMonth_le _ _)
  have c3 := daysBeforeYear_gap d.year
  push_cast at c1 c2 c3 ⊢
  omega

theorem tripContribution_eq (t : Trip) (ws we : Date) :
    tripContribution t ws we =
      if toOrdinal (prevDay t.end_) < toOrdinal (nextDay t.start) then 0
      else if min (toOrdinal we) (toOrdinal (prevDay t.end_)) <
          max (toOrdinal ws) (toOrdinal (nextDay t.start)) then 0
      else min (toOrdinal we) (toOrdinal (prevDay t.end_)) -
          max (toOrdinal ws) (toOrdinal (nextDay t.start)) + 1 := by
  unfold tripContribution overlap dmax dmin dateSub
  dsimp only
  split_ifs <;> dsimp only <;> omega

theorem tripContribution_nonneg (t : Trip) (ws we : Date) :
    0 ≤ tripContribution t ws we := by
  rw [tripContribution_eq]
  split_ifs <;> omega

theorem tripContribution_mono (t : Trip) {ws ws' : Date} (we : Date)
    (h : toOrdinal ws' ≤ toOrdinal ws) :
    tripContribution t ws we ≤ tripContribution t ws' we := by
  rw [tripContribution_eq, tripContribution_eq]
  split_ifs <;> omega

theorem tripContribution_point (t : Trip) (d : Date) :
    tripContribution t d d =
      if toOrdinal (nextDay t.start) ≤ toOrdinal d ∧
          toOrdinal d ≤ toOrdinal (prevDay t.end_) then 1 else 0 := by
  rw [tripContribution_eq]
  split_ifs <;> omega

theorem count_absent_days_nil (ws we : Date) : count_absent_days [] ws we = 0 := by
  unfold count_absent_days
  split <;> simp

theorem count_absent_days_singleton (t : Trip) (ws we : Date) :
    count_absent_days [t] ws we =
      if toOrdinal we < toOrdinal ws then 0 else tripContribution t ws we := by
  unfold count_absent_days
  split <;> simp

theorem count_absent_days_cons (t : Trip) (ts : List Trip) (ws we : Date) :
    count_absent_days (t :: ts) ws we =
      count_absent_days [t] ws we + count_absent_days ts ws we := by
  unfold count_absent_days
  split <;> simp

theorem count_absent_days_nonneg (trips : List Trip) (ws we : Date) :
    0 ≤ count_absent_days trips ws we := by
  induction trips with
  | nil => rw [count_absent_days_nil]
  | cons t ts ih =>
    rw [count_absent_days_cons, count_absent_days_singleton]
    have := tripContribution_nonneg t ws we
    split_ifs <;> omega

theorem count_absent_days_singleton_mono (t : Trip) {ws ws' : Date} (we : Date)
    (h : toOrdinal ws' ≤ toOrdinal ws) :
    count_absent_days [t] ws we ≤ count_absent_days [t] ws' we := by
  rw [count_absent_days_singleton, count_absent_days_singleton]
  have h1 := tripContribution_mono t we h
  have h2 := tripContribution_nonneg t ws' we
  split_ifs <;> omega

theorem count_absent_days_mono (trips : List Trip) {ws ws' : Date} (we : Date)
    (h : toOrdinal ws' ≤ toOrdinal ws) :
    count_absent_days trips ws we ≤ count_absent_days trips ws' we := by
  induction trips with
  | nil => rw [count_absent_days_nil, count_absent_days_nil]
  | cons t ts ih =>
    rw [count_absent_days_cons t ts ws we, count_absent_days_cons t ts ws' we]
    have := count_absent_days_singleton_mono t we h
    omega

/-- C1: `check_candidate_date` computes `days_12_months` over the
window `[candidate_date - 1 calendar year, candidate_date - 1 day]` and
`days_5_years` over `[candidate_date - 5 calendar years,
candidate_date - 1 day]`, compares them against the caps, and takes
`fully_eligible` as the conjunction of the three booleans; the year
subtraction is calendar-accurate (a 12-month window anchored at
2024-03-01 spans 366 days, one anchored at 2023-03-01 spans 365). -/
theorem check_candidate_date_spec (trips : List Trip) (candidate_date : Date)
    (max_12_month_absences max_5_year_absences : Int) :
    (check_candidate_date trips candidate_date max_12_month_absences
        max_5_year_absences).days_12_months =
      count_absent_days trips (subYears candidate_date 1) (prevDay candidate_date) ∧
    (check_candidate_date trips candidate_date max_12_month_absences
        max_5_year_absences).days_5_years =
      count_absent_days trips (subYears candidate_date 5) (prevDay candidate_date) ∧
    (check_candidate_date trips candidate_date max_12_month_absences
        max_5_year_absences).meets_12m_rule =
      decide ((check_candidate_date trips candidate_date max_12_month_absences
        max_5_year_absences).days_12_months ≤ max_12_month_absences) ∧
    (check_candidate_date trips candidate_date max_12_month_absences
        max_5_year_absences).meets_5y_rule =
      decide ((check_candidate_date trips candidate_date max_12_month_absences
        max_5_year_absences).days_5_years ≤ max_5_year_absences) ∧
    (check_candidate_date trips candidate_date max_12_month_absences
        max_5_year_absences).fully_eligible =
      ((check_candidate_date trips candidate_date max_12_month_absences
          max_5_year_absences).meets_12m_rule &&
       (check_candidate_date trips candidate_date max_12_month_absences
          max_5_year_absences).meets_5y_rule &&
       (check_candidate_date trips candidate_date max_12_month_absences
          max_5_year_absences).present_on_presence_date) ∧
    toOrdinal ⟨2024, 3, 1⟩ - toOrdinal (subYears ⟨2024, 3, 1⟩ 1) = 366 ∧
    toOrdinal ⟨2023, 3, 1⟩ - toOrdinal (subYears ⟨2023, 3, 1⟩ 1) = 365 :=
  ⟨rfl, rfl, rfl, rfl, rfl, by decide, by decide⟩

/-- C3: for a `Trip` with `end >= start` (on valid dates),
`full_absence_days` equals `max 0 ((end - start) - 1)`; it is 0 whenever
`end - start <= 1` day; and it is 1 for 2024-01-01..2024-01-03 and 9 for
2024-06-10..2024-06-20. -/
theorem full_absence_days_spec (t : Trip) (hs : t.start.Valid) (he : t.end_.Valid)
    (hle : toOrdinal t.start ≤ toOrdinal t.end_) :
    t.full_absence_days = max 0 (dateSub t.end_ t.start - 1) ∧
    (dateSub t.end_ t.start ≤ 1 → t.full_absence_days = 0) ∧
    Trip.full_absence_days ⟨⟨2024, 1, 1⟩, ⟨2024, 1, 3⟩, ""⟩ = 1 ∧
    Trip.full_absence_days ⟨⟨2024, 6, 10⟩, ⟨2024, 6, 20⟩, ""⟩ = 9 := by
  have h1 := toOrdinal_nextDay hs
  have h2 := toOrdinal_prevDay he
  unfold Trip.full_absence_days dateSub
  dsimp only
  rw [h1, h2]
  refine ⟨?_, fun h => ?_, by decide, by decide⟩
  · split_ifs <;> omega
  · split_ifs <;> omega

theorem full_absence_days_spec_witness :
    Date.Valid ⟨2024, 6, 10⟩ ∧ Date.Valid ⟨2024, 6, 20⟩ ∧
    toOrdinal ⟨2024, 6, 10⟩ ≤ toOrdinal ⟨2024, 6, 20⟩ ∧
    Trip.full_absence_days ⟨⟨2024, 6, 10⟩, ⟨2024, 6, 20⟩, ""⟩ =
      max 0 (dateSub ⟨2024, 6, 20⟩ ⟨2024, 6, 10⟩ - 1) :=
  ⟨by decide, by decide, by decide,
    (full_absence_days_spec ⟨⟨2024, 6, 10⟩, ⟨2024, 6, 20⟩, ""⟩
      (by decide) (by decide) (by decide)).1⟩

/-- C4: `count_absent_days` is the sum of the counts of the singleton
trip lists: overlapping trips are summed independently with no merging,
so a day covered by two trips counts twice (witnessed by the duplicated
trip over the one-day window 2024-01-03, which counts 2). -/
theorem count_absent_days_additive (trips : List Trip) (ws we : Date) :
    count_absent_days trips ws we =
      (trips.map fun t => count_absent_days [t] ws we).sum ∧
    count_absent_days
        [⟨⟨2024, 1, 1⟩, ⟨2024, 1, 5⟩, ""⟩, ⟨⟨2024, 1, 1⟩, ⟨2024, 1, 5⟩, ""⟩]
        ⟨2024, 1, 3⟩ ⟨2024, 1, 3⟩ = 2 := by
  refine ⟨?_, by decide⟩
  induction trips with
  | nil => simp [count_absent_days_nil]
  | cons t ts ih =>
    rw [count_absent_days_cons t ts ws we, List.map_cons, List.sum_cons, ih]

/-- C5: `check_candidate_date` sets `presence_date_5y` to
`(candidate_date - 5 calendar years) + 1 day` (2017-01-06 for candidate
2022-01-05) and `present_on_presence_date` to the negation of
`is_full_absence_day` at that date; any trip whose absence interval
covers the presence test date forces `present_on_presence_date = false`
and `fully_eligible = false`. -/
theorem presence_test_spec (trips : List Trip) (candidate_date : Date)
    (max12 max5 : Int) :
    (check_candidate_date trips candidate_date max12 max5).presence_date_5y =
      nextDay (subYears candidate_date 5) ∧
    (check_candidate_date trips candidate_date max12 max5).present_on_presence_date =
      !is_full_absence_day trips (nextDay (subYears candidate_date 5)) ∧
    (check_candidate_date [] ⟨2022, 1, 5⟩ 90 450).presence_date_5y = ⟨2017, 1, 6⟩ ∧
    (∀ t ∈ trips,
      toOrdinal (nextDay t.start) ≤ toOrdinal (nextDay (subYears candidate_date 5)) →
      toOrdinal (nextDay (subYears candidate_date 5)) ≤ toOrdinal (prevDay t.end_) →
      (check_candidate_date trips candidate_date max12 max5).present_on_presence_date
          = false ∧
      (check_candidate_date trips candidate_date max12 max5).fully_eligible = false) := by
  refine ⟨rfl, rfl, by decide, ?_⟩
  intro t ht hc1 hc2
  have hfull : is_full_absence_day trips (nextDay (subYears candidate_date 5)) = true := by
    unfold is_full_absence_day
    rw [List.any_eq_true]
    exact ⟨t, ht, by simp [hc1, hc2]⟩
  constructor
  · show (!is_full_absence_day trips (nextDay (subYears candidate_date 5))) = false
    rw [hfull]
    rfl
  · show (_ && _ && !is_full_absence_day trips (nextDay (subYears candidate_date 5)))
        = false
    rw [hfull]
    simp

theorem presence_test_spec_witness :
    (⟨⟨2017, 1, 1⟩, ⟨2017, 1, 31⟩, ""⟩ : Trip) ∈
      [(⟨⟨2017, 1, 1⟩, ⟨2017, 1, 31⟩, ""⟩ : Trip)] ∧
    (check_candidate_date [⟨⟨2017, 1, 1⟩, ⟨2017, 1, 31⟩, ""⟩] ⟨2022, 1, 5⟩ 90
        450).present_on_presence_date = false ∧
    (check_candidate_date [⟨⟨2017, 1, 1⟩, ⟨2017, 1, 31⟩, ""⟩] ⟨2022, 1, 5⟩ 90
        450).fully_eligible = false :=
  ⟨by decide,
    (presence_test_spec [⟨⟨2017, 1, 1⟩, ⟨2017, 1, 31⟩, ""⟩] ⟨2022, 1, 5⟩ 90 450).2.2.2
      ⟨⟨2017, 1, 1⟩, ⟨2017, 1, 31⟩, ""⟩ (by decide) (by decide) (by decide)⟩

/-- C6: constructing a `Trip` with `end < start` fails with the
validation error and yields no `Trip` value, while `end >= start`
succeeds and yields exactly the requested `Trip`. -/
theorem mkTrip_spec (s e : Date) (note : String) :
    (toOrdinal e < toOrdinal s →
      mkTrip s e note = Except.error "Trip end date cannot be before start date.") ∧
    (toOrdinal s ≤ toOrdinal e → mkTrip s e note = Except.ok ⟨s, e, note⟩) := by
  unfold mkTrip
  constructor <;> intro h <;> split_ifs <;> first | rfl | omega

theorem mkTrip_spec_witness :
    toOrdinal (⟨2024, 1, 5⟩ : Date) < toOrdinal (⟨2024, 1, 10⟩ : Date) ∧
    mkTrip ⟨2024, 1, 10⟩ ⟨2024, 1, 5⟩ "" =
      Except.error "Trip end date cannot be before start date." :=
  ⟨by decide, (mkTrip_spec ⟨2024, 1, 10⟩ ⟨2024, 1, 5⟩ "").1 (by decide)⟩

/-- C7: `count_absent_days` returns 0 as a normal value on an empty
window (`window_end < window_start`) for every trip list, and returns 0
on the empty trip list for every window. -/
theorem count_absent_days_empty_cases (trips : List Trip) (ws we : Date) :
    (toOrdinal we < toOrdinal ws → count_absent_days trips ws we = 0) ∧
    count_absent_days [] ws we = 0 := by
  refine ⟨fun h => ?_, count_absent_days_nil ws we⟩
  unfold count_absent_days
  rw [if_pos h]

theorem count_absent_days_empty_cases_witness :
    toOrdinal (⟨2024, 1, 1⟩ : Date) < toOrdinal (⟨2024, 1, 2⟩ : Date) ∧
    count_absent_days [⟨⟨2023, 1, 1⟩, ⟨2025, 1, 1⟩, ""⟩] ⟨2024, 1, 2⟩ ⟨2024, 1, 1⟩ = 0 :=
  ⟨by decide,
    (count_absent_days_empty_cases [⟨⟨2023, 1, 1⟩, ⟨2025, 1, 1⟩, ""⟩]
      ⟨2024, 1, 2⟩ ⟨2024, 1, 1⟩).1 (by decide)⟩

/-- C10: every result of `check_candidate_date` has
`days_12_months <= days_5_years`: the 12-month window starts no earlier
than the 5-year window, they share an end, and the contribution of each trip
is monotone under window enlargement. -/
theorem days_12_months_le_days_5_years (trips : List Trip) (candidate_date : Date)
    (max12 max5 : Int) :
    (check_candidate_date trips candidate_date max12 max5).days_12_months ≤
    (check_candidate_date trips candidate_date max12 max5).days_5_years := by
  show count_absent_days trips (subYears candidate_date 1) (prevDay candidate_date) ≤
    count_absent_days trips (subYears candidate_date 5) (prevDay candidate_date)
  exact count_absent_days_mono trips (prevDay candidate_date)
    (subYears_ord_le candidate_date)

/-- C9: the single-date presence test `is_full_absence_day` agrees
with counting over the one-day window `[d, d]`: it is true exactly when
`count_absent_days trips d d >= 1`. -/
theorem is_full_absence_day_agrees_with_count (trips : List Trip) (d : Date) :
    is_full_absence_day trips d = true ↔ 1 ≤ count_absent_days trips d d := by
  induction trips with
  | nil =>
    rw [count_absent_days_nil]
    simp [is_full_absence_day]
  | cons t ts ih =>
    rw [count_absent_days_cons t ts d d, count_absent_days_singleton,
      if_neg (lt_irrefl (toOrdinal d)), tripContribution_point]
    have hnn := count_absent_days_nonneg ts d d
    unfold is_full_absence_day at ih ⊢
    simp only [List.any_cons, Bool.or_eq_true, Bool.and_eq_true, decide_eq_true_eq] at ih ⊢
    by_cases hcov : toOrdinal (nextDay t.start) ≤ toOrdinal d ∧
        toOrdinal d ≤ toOrdinal (prevDay t.end_)
    · rw [if_pos hcov]
      exact ⟨fun _ => by omega, fun _ => Or.inl hcov⟩
    · rw [if_neg hcov]
      constructor
      · rintro (hc | hc)
        · exact absurd hc hcov
        · have := ih.mp hc
          omega
      · intro hsum
        exact Or.inr (ih.mpr (by omega))

theorem validate_trips_ok : ∀ (rows : List (Date × Date × String)),
    (∀ p ∈ rows, toOrdinal p.1 ≤ toOrdinal p.2.1) →
    validate_trips rows =
      Except.ok (rows.map fun r => (⟨r.1, r.2.1, r.2.2⟩ : Trip)) := by
  intro rows
  induction rows with
  | nil => intro _; rfl
  | cons r rs ih =>
    intro h
    have hr : toOrdinal r.1 ≤ toOrdinal r.2.1 := h r (List.mem_cons_self r rs)
    have hrs := ih fun p hp => h p (List.mem_cons_of_mem r hp)
    have hmk : mkTrip r.1 r.2.1 r.2.2 = Except.ok ⟨r.1, r.2.1, r.2.2⟩ := by
      unfold mkTrip
      rw [if_neg (not_lt.mpr hr)]
    unfold validate_trips at hrs ⊢
    rw [List.mapM_cons, hmk, hrs]
    rfl

/-- C8: with well-formed rows (each `end >= start`), the Trip
validation — the only error branch of the engine — succeeds, and
`count_absent_days`, `is_full_absence_day`, `check_candidate_date` and
`find_earliest_application_date` run to completion on the validated
trips, returning ordinary values through the raw-input compositions. -/
theorem engine_total_on_validated_trips (rows : List (Date × Date × String))
    (h : ∀ p ∈ rows, toOrdinal p.1 ≤ toOrdinal p.2.1) :
    validate_trips rows =
      Except.ok (rows.map fun r => (⟨r.1, r.2.1, r.2.2⟩ : Trip)) ∧
    (∀ ws we, count_absent_days_from_rows rows ws we =
      Except.ok (count_absent_days (rows.map fun r => ⟨r.1, r.2.1, r.2.2⟩) ws we)) ∧
    (∀ d, is_full_absence_day_from_rows rows d =
      Except.ok (is_full_absence_day (rows.map fun r => ⟨r.1, r.2.1, r.2.2⟩) d)) ∧
    (∀ cand c1 c2, check_candidate_date_from_rows rows cand c1 c2 =
      Except.ok (check_candidate_date (rows.map fun r => ⟨r.1, r.2.1, r.2.2⟩)
        cand c1 c2)) ∧
    (∀ today sy c1 c2, find_earliest_application_date_from_rows rows today sy c1 c2 =
      Except.ok (find_earliest_application_date (rows.map fun r => ⟨r.1, r.2.1, r.2.2⟩)
        today sy c1 c2)) := by
  have hv := validate_trips_ok rows h
  refine ⟨hv, fun ws we => ?_, fun d => ?_, fun cand c1 c2 => ?_,
    fun today sy c1 c2 => ?_⟩
  · unfold count_absent_days_from_rows
    rw [hv]
    rfl
  · unfold is_full_absence_day_from_rows
    rw [hv]
    rfl
  · unfold check_candidate_date_from_rows
    rw [hv]
    rfl
  · unfold find_earliest_application_date_from_rows
    rw [hv]
    rfl

theorem engine_total_on_validated_trips_witness :
    count_absent_days_from_rows [(⟨2024, 1, 1⟩, ⟨2024, 1, 10⟩, "x")]
        ⟨2024, 1, 1⟩ ⟨2024, 12, 31⟩ =
      Except.ok (count_absent_days
        ([(⟨2024, 1, 1⟩, ⟨2024, 1, 10⟩, "x")].map fun r => ⟨r.1, r.2.1, r.2.2⟩)
        ⟨2024, 1, 1⟩ ⟨2024, 12, 31⟩) :=
  (engine_total_on_validated_trips [(⟨2024, 1, 1⟩, ⟨2024, 1, 10⟩, "x")]
    (by decide)).2.1 ⟨2024, 1, 1⟩ ⟨2024, 12, 31⟩

theorem searchFrom_spec (trips : List Trip) (c1 c2 : Int) :
    ∀ (n : Nat) (cur : Date), cur.Valid →
    (∀ r, searchFrom trips c1 c2 n cur = some r →
      r.fully_eligible = true ∧
      r = check_candidate_date trips r.candidate_date c1 c2 ∧
      r.candidate_date.Valid ∧
      toOrdinal cur ≤ toOrdinal r.candidate_date ∧
      toOrdinal r.candidate_date < toOrdinal cur + n ∧
      (∀ d : Date, d.Valid → toOrdinal cur ≤ toOrdinal d →
        toOrdinal d < toOrdinal r.candidate_date →
        (check_candidate_date trips d c1 c2).fully_eligible = false)) ∧
    (searchFrom trips c1 c2 n cur = none →
      ∀ d : Date, d.Valid → toOrdinal cur ≤ toOrdinal d →
      toOrdinal d < toOrdinal cur + n →
      (check_candidate_date trips d c1 c2).fully_eligible = false) := by
  intro n
  induction n with
  | zero =>
    intro cur hv
    constructor
    · intro r hr
      simp [searchFrom] at hr
    · intro _ d _ _ hlt
      omega
  | succ n ih =>
    intro cur hv
    have hstep : searchFrom trips c1 c2 (n + 1) cur =
        if (check_candidate_date trips cur c1 c2).fully_eligible then
          some (check_candidate_date trips cur c1 c2)
        else searchFrom trips c1 c2 n (nextDay cur) := rfl
    have hcand : (check_candidate_date trips cur c1 c2).candidate_date = cur := rfl
    cases he : (check_candidate_date trips cur c1 c2).fully_eligible with
    | true =>
      rw [hstep, if_pos he]
      constructor
      · intro r hr
        injection hr with hr
        subst hr
        rw [hcand]
        refine ⟨he, rfl, hv, le_refl _, by omega, ?_⟩
        intro d hd hge hlt
        omega
      · intro hnone
        exact absurd hnone (by simp)
    | false =>
      have he' : ¬((check_candidate_date trips cur c1 c2).fully_eligible = true) := by
        rw [he]
        exact Bool.false_ne_true
      rw [hstep, if_neg he']
      obtain ⟨ihs, ihn⟩ := ih (nextDay cur) (nextDay_valid hv)
      have hord := toOrdinal_nextDay hv
      constructor
      · intro r hr
        obtain ⟨e1, e2, e3, e4, e5, e6⟩ := ihs r hr
        refine ⟨e1, e2, e3, by omega, by omega, ?_⟩
        intro d hd hge hlt
        by_cases hdc : toOrdinal d = toOrdinal cur
        · have hdcur : d = cur := toOrdinal_inj hd hv hdc
          subst hdcur
          exact he
        · exact e6 d hd (by omega) hlt
      · intro hnone d hd hge hlt
        by_cases hdc : toOrdinal d = toOrdinal cur
        · have hdcur : d = cur := toOrdinal_inj hd hv hdc
          subst hdcur
          exact he
        · exact ihn hnone d hd (by omega) (by omega)

/-- C2: `find_earliest_application_date` scans day by day from
`today` to `today + search_years` calendar years inclusive and returns
the `check_candidate_date` result of the first fully eligible date: a
returned result is fully eligible, lies in the range, and no earlier
valid date in the range is fully eligible; `none` (not-found, a normal
outcome) is returned exactly when no date in the range is fully
eligible. -/
theorem find_earliest_application_date_spec (trips : List Trip) (today : Date)
    (search_years : Nat) (c1 c2 : Int) (hv : today.Valid) :
    (∀ r, find_earliest_application_date trips today search_years c1 c2 = some r →
      r.fully_eligible = true ∧
      r = check_candidate_date trips r.candidate_date c1 c2 ∧
      toOrdinal today ≤ toOrdinal r.candidate_date ∧
      toOrdinal r.candidate_date ≤ toOrdinal (addYears today search_years) ∧
      (∀ d : Date, d.Valid → toOrdinal today ≤ toOrdinal d →
        toOrdinal d < toOrdinal r.candidate_date →
        (check_candidate_date trips d c1 c2).fully_eligible = false)) ∧
    (find_earliest_application_date trips today search_years c1 c2 = none →
      ∀ d : Date, d.Valid → toOrdinal today ≤ toOrdinal d →
      toOrdinal d ≤ toOrdinal (addYears today search_years) →
      (check_candidate_date trips d c1 c2).fully_eligible = false) := by
  obtain ⟨hs, hn⟩ := searchFrom_spec trips c1 c2
    (toOrdinal (addYears today search_years) + 1 - toOrdinal today).toNat today hv
  have hfind : find_earliest_application_date trips today search_years c1 c2 =
      searchFrom trips c1 c2
        (toOrdinal (addYears today search_years) + 1 - toOrdinal today).toNat today := rfl
  constructor
  · intro r hr
    rw [hfind] at hr
    obtain ⟨e1, e2, e3, e4, e5, e6⟩ := hs r hr
    exact ⟨e1, e2, e4, by omega, e6⟩
  · intro hnone d hd hge hle
    rw [hfind] at hnone
    exact hn hnone d hd hge (by omega)

theorem find_earliest_application_date_spec_witness :
    Date.Valid ⟨2024, 1, 1⟩ ∧
    (check_candidate_date ([] : List Trip) ⟨2024, 1, 1⟩ 90 450).fully_eligible = true :=
  ⟨by decide,
    ((find_earliest_application_date_spec [] ⟨2024, 1, 1⟩ 0 90 450 (by decide)).1
      (check_candidate_date [] ⟨2024, 1, 1⟩ 90 450) (by decide)).1⟩

theorem is_full_absence_day_agrees_with_count_witness :
    is_full_absence_day [⟨⟨2024, 1, 1⟩, ⟨2024, 1, 10⟩, ""⟩] ⟨2024, 1, 5⟩ = true :=
  (is_full_absence_day_agrees_with_count [⟨⟨2024, 1, 1⟩, ⟨2024, 1, 10⟩, ""⟩]
    ⟨2024, 1, 5⟩).mpr (by decide)
